import Mathlib

/-!
Verification development for the lute graph connector
(`connector/graph/graph/{main,lute,db,api,models,settings}.py`).

The Python sources are shallowly embedded below: protobuf messages become
structures with `Option` fields for presence-tracked submessages, Python
dicts become insertion-ordered association lists with overwrite semantics,
Python sets become duplicate-free lists, raised exceptions become `Except`,
and the cooperating coroutines of `LuteClient.stream_events` become an
explicit small-step machine whose steps mirror the suspension points of the
code.
-/

set_option maxRecDepth 4000

/-- Artist message (`lute_pb2.ParsedArtistReference`): a file name and a
display name, as read by `db.py` / `main.py`. -/
structure Artist where
  file_name : String
  name : String
deriving DecidableEq, Repr

/-- Credit message: an artist together with role strings
(`credit.artist`, `credit.roles`). -/
structure Credit where
  artist : Artist
  roles : List String
deriving DecidableEq, Repr

/-- ParsedAlbum message, restricted to the fields the connector reads. -/
structure ParsedAlbum where
  name : String
  artists : List Artist
  credits : List Credit
  primary_genres : List String
  secondary_genres : List String
  descriptors : List String
  languages : List String
deriving DecidableEq, Repr

/-- The all-default ParsedAlbum (protobuf default instance). -/
def ParsedAlbum.defaultMsg : ParsedAlbum :=
  ⟨"", [], [], [], [], [], []⟩

/-- FileParsedEventData: carries an optional `album` submessage
(`HasField("album")` becomes `Option.isSome`). -/
structure FileParsedEventData where
  album : Option ParsedAlbum
deriving DecidableEq, Repr

/-- Default (empty) FileParsedEventData. -/
def FileParsedEventData.defaultMsg : FileParsedEventData := ⟨none⟩

/-- FileParsedEvent: `file_name` scalar plus optional `data` submessage. -/
structure FileParsedEvent where
  file_name : String
  data : Option FileParsedEventData
deriving DecidableEq, Repr

/-- Default (empty) FileParsedEvent. -/
def FileParsedEvent.defaultMsg : FileParsedEvent := ⟨"", none⟩

/-- Event union: the only variant the connector inspects is `file_parsed`;
any other variant of the oneof is modelled as `file_parsed = none`. -/
structure Event where
  file_parsed : Option FileParsedEvent
deriving DecidableEq, Repr

/-- Default (empty) Event. -/
def Event.defaultMsg : Event := ⟨none⟩

/-- EventPayload message with its optional `event` field. -/
structure EventPayload where
  event : Option Event
deriving DecidableEq, Repr

/-- Default (empty) EventPayload. -/
def EventPayload.defaultMsg : EventPayload := ⟨none⟩

/-- EventStreamItem with its optional `payload` field. -/
structure EventStreamItem where
  payload : Option EventPayload
deriving DecidableEq, Repr

/-- Embedding of `main.is_album_parsed_event` (main.py lines 24-31): the
five-way `HasField` conjunction down the
`payload -> event -> file_parsed -> data -> album` chain.  Reading an unset
protobuf submessage yields the default instance, hence the `getD` calls. -/
def is_album_parsed_event (item : EventStreamItem) : Bool :=
  let payload := item.payload.getD EventPayload.defaultMsg
  let event := payload.event.getD Event.defaultMsg
  let fp := event.file_parsed.getD FileParsedEvent.defaultMsg
  let data := fp.data.getD FileParsedEventData.defaultMsg
  item.payload.isSome && payload.event.isSome && event.file_parsed.isSome
    && fp.data.isSome && data.album.isSome

/-- The pair the `run` comprehension yields for an accepted item
(main.py lines 283-290); `none` for a dropped item. -/
def albumParsedEntry (item : EventStreamItem) : Option (String × ParsedAlbum) :=
  if is_album_parsed_event item then
    let payload := item.payload.getD EventPayload.defaultMsg
    let event := payload.event.getD Event.defaultMsg
    let fp := event.file_parsed.getD FileParsedEvent.defaultMsg
    let data := fp.data.getD FileParsedEventData.defaultMsg
    some (fp.file_name, data.album.getD ParsedAlbum.defaultMsg)
  else none

/-- Embedding of the `parsed_albums` list comprehension in `run`
(main.py lines 283-290): filter by the classifier, extract the pair. -/
def parsed_albums (items : List EventStreamItem) : List (String × ParsedAlbum) :=
  items.filterMap albumParsedEntry

/-- Batch size used by the `upload_generator` closure in
`api.sync_album_embeddings` (api.py line 46). -/
def upload_batch_size : Nat := 1500

/-- Embedding of the `upload_generator` loop of `api.sync_album_embeddings`
(api.py lines 48-57): starting from cursor 0, while `cursor < len`, yield
the slice `embeddings[cursor : cursor + 1500]` and advance the cursor by
1500.  The slice at cursor `c` of the remaining list is `take 1500`, and
advancing the cursor is `drop 1500`. -/
def upload_generator (embeddings : List α) : List (List α) :=
  match embeddings with
  | [] => []
  | x :: rest =>
    (x :: rest).take upload_batch_size ::
      upload_generator ((x :: rest).drop upload_batch_size)
termination_by embeddings.length
decreasing_by
  simp [List.length_drop, upload_batch_size]
  omega

/-- Monitor subscriber entry (`monitor.subscribers[i]`): an id and a cursor. -/
structure Subscriber where
  id : String
  cursor : String
deriving DecidableEq, Repr

/-- EventsMonitor message: the server's list of subscribers. -/
structure EventsMonitor where
  subscribers : List Subscriber
deriving DecidableEq, Repr

/-- Default prefix for subscriber ids
(settings.py: `LUTE_EVENT_SUBSCRIBER_PREFIX`, default `"graph-connector"`). -/
def default_subscriber_pfx : String := "graph-connector"

/-- Wire subscriber id (lute.py lines 48 and 63):
`f"{LUTE_EVENT_SUBSCRIBER_PREFIX}:{subscriber_id}"`. -/
def wireSubscriberId (pfx subscriber_id : String) : String :=
  pfx ++ ":" ++ subscriber_id

/-- The RPCs a `LuteClient` method can perform, for tracking that the
not-initialized paths perform none. -/
inductive RpcCall where
  | getMonitor
  | eventStream
  | bulkUploadEmbeddings
deriving DecidableEq, Repr

/-- State set up by `LuteClient.__init__` / `__aenter__` (lute.py lines
16-31): the channel and the two stubs, all `None` until `__aenter__` runs.
The stubs themselves are opaque; only their presence matters. -/
structure LuteClient where
  channel : Option Unit
  album_service : Option Unit
  event_service : Option Unit
deriving DecidableEq, Repr

/-- A freshly constructed client (`LuteClient.__init__`): nothing set up. -/
def LuteClient.fresh : LuteClient := ⟨none, none, none⟩

/-- Embedding of `LuteClient.get_event_monitor` (lute.py lines 37-42).
The server's reply is a parameter; the second component lists the RPCs
performed. -/
def get_event_monitor (c : LuteClient) (server_monitor : EventsMonitor) :
    Except String EventsMonitor × List RpcCall :=
  match c.event_service with
  | none => (.error "Client not initialized", [])
  | some _ => (.ok server_monitor, [.getMonitor])

/-- The `for subscriber in monitor.subscribers` loop of
`get_subscriber_cursor` (lute.py lines 51-55): first entry whose id equals
the wire id wins; `None` when none matches. -/
def findCursor : List Subscriber → String → Option String
  | [], _ => none
  | s :: rest, wid => if s.id = wid then some s.cursor else findCursor rest wid

/-- Embedding of `LuteClient.get_subscriber_cursor` (lute.py lines 44-55):
prefix the id, fetch the monitor (one GetMonitor RPC), scan the entries. -/
def get_subscriber_cursor (c : LuteClient) (pfx : String)
    (server_monitor : EventsMonitor) (subscriber_id : String) :
    Except String (Option String) × List RpcCall :=
  match c.event_service with
  | none => (.error "Client not initialized", [])
  | some _ =>
    (.ok (findCursor server_monitor.subscribers (wireSubscriberId pfx subscriber_id)),
      [.getMonitor])

/-- EventStreamRequest message as built by `stream_events`
(lute.py lines 68-81): the initial request has no cursor. -/
structure EventStreamRequest where
  stream_id : String
  subscriber_id : String
  cursor : Option String
  max_batch_size : Nat
deriving DecidableEq, Repr

/-- Parameters of one `stream_events` call: the arguments (with the
subscriber id already prefixed, lute.py line 63) and the environment's
reply cursors (`reply.cursor` of the n-th server reply). -/
structure StreamParams where
  stream_id : String
  subscriber_id : String
  max_batch_size : Nat
  replyCursor : Nat → String

/-- The initial request yielded by `request_generator`
(lute.py lines 68-72): no cursor field. -/
def initialRequest (p : StreamParams) : EventStreamRequest :=
  ⟨p.stream_id, p.subscriber_id, none, p.max_batch_size⟩

/-- The acknowledgement request for the n-th batch yielded by
`request_generator` (lute.py lines 74-82): carries that batch's cursor. -/
def ackRequest (p : StreamParams) (n : Nat) : EventStreamRequest :=
  ⟨p.stream_id, p.subscriber_id, some (p.replyCursor n), p.max_batch_size⟩

/-- Embedding of `LuteClient.stream_events` initialization check
(lute.py lines 60-61): before the stream machine can run, the stub must be
present; the `ValueError` is raised before any RPC. -/
def stream_events (c : LuteClient) (pfx stream_id subscriber_id : String)
    (max_batch_size : Nat) (replyCursor : Nat → String) :
    Except String StreamParams × List RpcCall :=
  match c.event_service with
  | none => (.error "Client not initialized", [])
  | some _ =>
    (.ok ⟨stream_id, wireSubscriberId pfx subscriber_id, max_batch_size, replyCursor⟩, [])

/-- Embedding document (models.py lines 13-17). -/
structure EmbeddingDocument where
  file_name : String
  embedding : List Float
  embedding_key : String

/-- One item of a BulkUploadAlbumEmbeddingsRequest (lute.py lines 98-102):
the document's three fields copied onto the wire. -/
structure BulkUploadItem where
  file_name : String
  embedding : List Float
  embedding_key : String

/-- One BulkUploadAlbumEmbeddingsRequest per yielded batch
(lute.py lines 94-105). -/
def bulkRequests (batches : List (List EmbeddingDocument)) :
    List (List BulkUploadItem) :=
  batches.map fun batch =>
    batch.map fun doc => ⟨doc.file_name, doc.embedding, doc.embedding_key⟩

/-- Embedding of `LuteClient.bulk_upload_embeddings` (lute.py lines 88-108):
check the stub, stream the wrapped batches, return the server's count
(`reply.count`); the server's behaviour is the function `server_reply`. -/
def bulk_upload_embeddings (c : LuteClient)
    (batches : List (List EmbeddingDocument))
    (server_reply : List (List BulkUploadItem) → Nat) :
    Except String Nat × List RpcCall :=
  match c.album_service with
  | none => (.error "Client not initialized", [])
  | some _ => (.ok (server_reply (bulkRequests batches)), [.bulkUploadEmbeddings])

/-- Python dict assignment `d[k] = v`: overwrite in place when the key is
present, append otherwise (insertion order preserved). -/
def dictSet (d : List (String × String)) (k v : String) :
    List (String × String) :=
  if d.any fun p => p.1 = k then
    d.map fun p => if p.1 = k then (k, v) else p
  else d ++ [(k, v)]

/-- Python `k in d` on a dict. -/
def dictContains (d : List (String × String)) (k : String) : Bool :=
  d.any fun p => p.1 = k

/-- Python `d.get(k)` on a dict. -/
def dictGet (d : List (String × String)) (k : String) : Option String :=
  (d.find? fun p => p.1 = k).map fun p => p.2

/-- Python `s.add(x)` on a set, modelled as a duplicate-free list; only
membership and cardinality of the result are ever used. -/
def setAdd (s : List String) (x : String) : List String :=
  if x ∈ s then s else s ++ [x]

/-- Accumulator of the per-album loop of `update_graph`
(db.py lines 57-84, identically main.py lines 81-108): the four node
collections plus the relationship counter. -/
structure UpdateAcc where
  artists : List (String × String)
  genres : List String
  descriptors : List String
  languages : List String
  relationship_count : Nat
deriving DecidableEq, Repr

/-- Body of the `for _, album in albums` loop (db.py lines 62-84):
`artists[artist.file_name] = artist.name` for every artists-list entry,
the guarded `if credit.artist.file_name not in artists` insert for every
credit, `add` for genres (primary then secondary), descriptors and
languages, and the six-length sum added to `relationship_count`. -/
def processAlbum (acc : UpdateAcc) (album : ParsedAlbum) : UpdateAcc :=
  let artists1 := album.artists.foldl
    (fun d ar => dictSet d ar.file_name ar.name) acc.artists
  let artists2 := album.credits.foldl
    (fun d cr =>
      if dictContains d cr.artist.file_name then d
      else dictSet d cr.artist.file_name cr.artist.name)
    artists1
  { artists := artists2
    genres := album.secondary_genres.foldl setAdd
      (album.primary_genres.foldl setAdd acc.genres)
    descriptors := album.descriptors.foldl setAdd acc.descriptors
    languages := album.languages.foldl setAdd acc.languages
    relationship_count := acc.relationship_count
      + album.artists.length + album.credits.length
      + album.primary_genres.length + album.secondary_genres.length
      + album.descriptors.length + album.languages.length }

/-- The collections `update_graph` has built when the loop finishes. -/
def buildUpdateAcc (albums : List (String × ParsedAlbum)) : UpdateAcc :=
  albums.foldl (fun acc p => processAlbum acc p.2) ⟨[], [], [], [], 0⟩

/-- The `$artists` parameter rows of the Artist MERGE statement
(db.py lines 86-98): the collected dict as `{file_name, name}` records;
the display name goes to `ON CREATE SET a.name`. -/
def artistMergeRows (albums : List (String × ParsedAlbum)) :
    List (String × String) :=
  (buildUpdateAcc albums).artists

/-- The `node_count` reported in the "Graph updated" record
(db.py lines 239-241): dict/set sizes plus the batch length. -/
def node_count (albums : List (String × ParsedAlbum)) : Nat :=
  let acc := buildUpdateAcc albums
  acc.artists.length + acc.genres.length + acc.descriptors.length
    + acc.languages.length + albums.length

/-- The `relationship_count` reported in the "Graph updated" record
(db.py lines 77-84 and 249). -/
def relationship_count (albums : List (String × ParsedAlbum)) : Nat :=
  (buildUpdateAcc albums).relationship_count

/-- A GENRE relationship key as MERGEd by `update_graph`: MERGE matches on
the endpoint pair together with the `weight` property, so the weight is
part of the edge identity. -/
structure GenreEdge where
  album_file_name : String
  genre : String
  weight : Nat
deriving DecidableEq, Repr

/-- GENRE MERGE rows issued by `db.update_graph` (db.py lines 175-205):
one weight-3 row per (album, primary genre), then one weight-1 row per
(album, secondary genre). -/
def dbGenreRows (albums : List (String × ParsedAlbum)) : List GenreEdge :=
  (albums.flatMap fun p => p.2.primary_genres.map fun g => ⟨p.1, g, 3⟩)
    ++ albums.flatMap fun p => p.2.secondary_genres.map fun g => ⟨p.1, g, 1⟩

/-- GENRE MERGE rows issued by `main.update_graph` (main.py lines 199-229):
one weight-2 row per (album, primary genre), then one weight-1 row per
(album, secondary genre). -/
def mainGenreRows (albums : List (String × ParsedAlbum)) : List GenreEdge :=
  (albums.flatMap fun p => p.2.primary_genres.map fun g => ⟨p.1, g, 2⟩)
    ++ albums.flatMap fun p => p.2.secondary_genres.map fun g => ⟨p.1, g, 1⟩

/-- The set of GENRE edges existing after `db.update_graph` runs on an
empty graph: MERGE deduplicates rows with identical keys. -/
def dbGenreEdges (albums : List (String × ParsedAlbum)) : Finset GenreEdge :=
  (dbGenreRows albums).toFinset

/-- The set of GENRE edges existing after `main.update_graph` runs on an
empty graph: MERGE deduplicates rows with identical keys. -/
def mainGenreEdges (albums : List (String × ParsedAlbum)) : Finset GenreEdge :=
  (mainGenreRows albums).toFinset

/-- Relation weights for embedding generation (models.py lines 6-10):
pydantic `AlbumRelationWeights` with PositiveInt fields. -/
structure AlbumRelationWeights where
  album_artist : Nat
  credited : Nat
  descriptor : Nat
  language : Nat
deriving DecidableEq, Repr

/-- The pydantic field defaults of `AlbumRelationWeights`. -/
def AlbumRelationWeights.defaults : AlbumRelationWeights := ⟨4, 2, 1, 1⟩

/-- The `properties` entry of one relationship-projection record
(db.py lines 260-278): either a stored property name (GENRE) or a property
with a caller-supplied default value (the other four types). -/
inductive RelPropsSpec where
  | stored (propertyName : String)
  | withDefault (propertyName : String) (defaultValue : Nat)
deriving DecidableEq, Repr

/-- One relationship-projection record: orientation plus properties. -/
structure RelProjection where
  orientation : String
  props : RelPropsSpec
deriving DecidableEq, Repr

/-- The `node_projection` list of `generate_album_embeddings`
(db.py line 259). -/
def node_projection : List String :=
  ["Album", "Genre", "Artist", "Descriptor", "Language"]

/-- The `relationship_projection` dict of `generate_album_embeddings`
(db.py lines 260-278), keyed by relationship type. -/
def relationship_projection (w : AlbumRelationWeights) :
    List (String × RelProjection) :=
  [("GENRE", ⟨"UNDIRECTED", .stored "weight"⟩),
   ("DESCRIPTOR", ⟨"UNDIRECTED", .withDefault "weight" w.descriptor⟩),
   ("LANGUAGE", ⟨"UNDIRECTED", .withDefault "weight" w.language⟩),
   ("ALBUM_ARTIST", ⟨"UNDIRECTED", .withDefault "weight" w.album_artist⟩),
   ("CREDITED", ⟨"UNDIRECTED", .withDefault "weight" w.credited⟩)]

/-- One row of the FastRP result frame (db.py lines 297-312): a file name
and an embedding vector, already restricted to Album nodes by the query. -/
structure EmbeddingRow where
  fileName : String
  embedding : List Float

/-- Resource trace of one `generate_album_embeddings` call: how many named
projections were created and how many were dropped before the call
completed (normally or by an escaping exception). -/
structure ProjectionTrace where
  projections_created : Nat
  projections_dropped : Nat
deriving DecidableEq, Repr

/-- Embedding of `db.generate_album_embeddings` (db.py lines 255-335) as
straight-line code over the outcome of the embedding query
(`gds.run_cypher` of the FastRP call together with the result conversion),
which is the only fallible step between projection creation and the
`projection.drop()` call.  The body: create the projection, run the query
— an exception propagates immediately — build the documents, drop the
projection, return.  There is no `try`/`finally` in the source, so the
error branch leaves the drop count at zero. -/
def generate_album_embeddings (embedding_key : String)
    (_w : AlbumRelationWeights)
    (query_outcome : Except String (List EmbeddingRow)) :
    Except String (List EmbeddingDocument) × ProjectionTrace :=
  match query_outcome with
  | .error e => (.error e, ⟨1, 0⟩)
  | .ok rows =>
    (.ok (rows.map fun row => ⟨row.fileName, row.embedding, embedding_key⟩),
      ⟨1, 1⟩)

/-- One scheduler step of the `stream_events` coroutines (lute.py lines
57-86).  The consumer loop (lines 84-86) and `request_generator` (lines
67-82) interleave; steps are the suspension points:
* `init`     — `request_generator` yields the cursor-less initial request;
* `consume`  — the consumer loop receives the next server reply and the
               caller pulls (`yield reply.items` returns);
* `put`      — `await queue.put(reply.cursor)` enqueues that batch's cursor;
* `emitAck`  — `request_generator` completes `await queue.get()` and yields
               the acknowledgement request carrying the dequeued cursor. -/
inductive StreamStep where
  | init
  | consume
  | put
  | emitAck
deriving DecidableEq, Repr

/-- Machine state for one `stream_events` call.  `consumedCount` counts
batches the caller has pulled, `putCount` counts cursors enqueued (the
FIFO queue holds the cursor indices `ackCount ≤ i < putCount`), `ackCount`
counts acknowledgement requests emitted, and `sent` is the list of
outgoing `EventStreamRequest`s in order. -/
structure StreamState where
  started : Bool
  consumedCount : Nat
  putCount : Nat
  ackCount : Nat
  sent : List EventStreamRequest
deriving DecidableEq, Repr

/-- The state before the RPC machinery first pulls `request_generator`. -/
def StreamState.start : StreamState := ⟨false, 0, 0, 0, []⟩

/-- Guarded transition function.  `none` means the step is not enabled:
the initial request is yielded once; the consumer handles replies strictly
in order (it cannot pull reply `n+1` before enqueueing cursor `n`); a put
follows a pull; `queue.get()` needs a queued cursor.  The server may push
replies ahead of acknowledgements, so `consume` is not gated on `ackCount`.
-/
def streamStep (p : StreamParams) (s : StreamState) :
    StreamStep → Option StreamState
  | .init =>
    if s.started then none
    else some { s with started := true, sent := s.sent ++ [initialRequest p] }
  | .consume =>
    if s.started ∧ s.consumedCount = s.putCount then
      some { s with consumedCount := s.consumedCount + 1 }
    else none
  | .put =>
    if s.putCount < s.consumedCount then
      some { s with putCount := s.putCount + 1 }
    else none
  | .emitAck =>
    if s.started ∧ s.ackCount < s.putCount then
      some { s with ackCount := s.ackCount + 1,
                    sent := s.sent ++ [ackRequest p s.ackCount] }
    else none

/-- Run a list of scheduler steps from a state; `none` if any step is not
enabled at its point in the sequence. -/
def streamRun (p : StreamParams) (s : StreamState) :
    List StreamStep → Option StreamState
  | [] => some s
  | step :: rest =>
    match streamStep p s step with
    | none => none
    | some s2 => streamRun p s2 rest

/-- An execution of `stream_events`: some schedule of the coroutines
starting from the initial state. -/
def streamReachable (p : StreamParams) (s : StreamState) : Prop :=
  ∃ steps : List StreamStep, streamRun p StreamState.start steps = some s

/-- Left-biased choice on `Option`, used to state which occurrence of an
artist's name ends up in the collected dict. -/
def optOr (a b : Option α) : Option α :=
  match a with
  | some x => some x
  | none => b

/-- The names attached to occurrences of the artist `file_name` inside the
albums' `artists` lists, in batch order. -/
def artistListNames (albums : List (String × ParsedAlbum)) (fn : String) :
    List String :=
  albums.flatMap fun p =>
    (p.2.artists.filter fun ar => ar.file_name == fn).map Artist.name

/-- The names attached to occurrences of the artist `file_name` inside the
albums' `credits` lists, in batch order. -/
def creditNames (albums : List (String × ParsedAlbum)) (fn : String) :
    List String :=
  albums.flatMap fun p =>
    (p.2.credits.filter fun cr => cr.artist.file_name == fn).map
      fun cr => cr.artist.name

/-- All artist file_name occurrences of a batch (artists lists, then
credits, per album). -/
def artistOccs (albums : List (String × ParsedAlbum)) : List String :=
  albums.flatMap fun p =>
    p.2.artists.map Artist.file_name
      ++ p.2.credits.map fun cr => cr.artist.file_name

/-- All genre occurrences of a batch (primary then secondary, per album). -/
def genreOccs (albums : List (String × ParsedAlbum)) : List String :=
  albums.flatMap fun p => p.2.primary_genres ++ p.2.secondary_genres

/-- All descriptor occurrences of a batch. -/
def descriptorOccs (albums : List (String × ParsedAlbum)) : List String :=
  albums.flatMap fun p => p.2.descriptors

/-- All language occurrences of a batch. -/
def languageOccs (albums : List (String × ParsedAlbum)) : List String :=
  albums.flatMap fun p => p.2.languages

/-- Per-album contribution to the `relationship_count` counter
(db.py lines 77-84): note `credits.length`, not the (credit, role) pairs. -/
def albumRelContribution (a : ParsedAlbum) : Nat :=
  a.artists.length + a.credits.length + a.primary_genres.length
    + a.secondary_genres.length + a.descriptors.length + a.languages.length

/-- Concrete album with one primary genre and nothing else. -/
def primaryOnlyAlbum : ParsedAlbum := ⟨"", [], [], ["rock"], [], [], []⟩

/-- Concrete album listing the same genre as primary and as secondary. -/
def dualGenreAlbum : ParsedAlbum := ⟨"", [], [], ["a"], ["a"], [], []⟩

/-- Concrete album whose artists list holds the same file_name twice with
differing display names. -/
def dupArtistAlbum : ParsedAlbum :=
  ⟨"", [⟨"fn", "A"⟩, ⟨"fn", "B"⟩], [], [], [], [], []⟩

/-- Concrete stream parameters with distinguishable reply cursors. -/
def cexStreamParams : StreamParams :=
  ⟨"parser", "graph-connector:build", 500, fun n => "c" ++ toString n⟩

theorem upload_generator_nil : upload_generator ([] : List α) = [] := by
  rw [upload_generator]

theorem upload_generator_join (l : List α) : (upload_generator l).flatten = l := by
  induction l using upload_generator.induct with
  | case1 => rw [upload_generator_nil]; rfl
  | case2 x rest ih =>
    rw [upload_generator]
    simp only [List.flatten_cons]
    rw [ih, List.take_append_drop]

theorem upload_generator_mem (l b : List α) (hb : b ∈ upload_generator l) :
    b ≠ [] ∧ b.length ≤ upload_batch_size := by
  induction l using upload_generator.induct with
  | case1 => simp [upload_generator] at hb
  | case2 x rest ih =>
    rw [upload_generator] at hb
    rcases List.mem_cons.mp hb with h | h
    · subst h
      refine ⟨List.ne_nil_of_length_pos ?_, ?_⟩
      · rw [List.length_take]
        exact Nat.lt_min.mpr ⟨by simp [upload_batch_size], Nat.succ_pos _⟩
      · rw [List.length_take]
        exact Nat.min_le_left _ _
    · exact ih h

/-- C10: the upload generator of `sync_album_embeddings` partitions the
embedding list into consecutive non-empty batches of at most 1500
documents, in order, whose concatenation is the whole list; an empty list
yields no batch. -/
theorem upload_generator_partitions (l : List α) :
    (upload_generator l).flatten = l ∧
      (∀ b ∈ upload_generator l, b ≠ [] ∧ b.length ≤ upload_batch_size) ∧
      upload_generator ([] : List α) = [] :=
  ⟨upload_generator_join l, fun b hb => upload_generator_mem l b hb,
    upload_generator_nil⟩

/-- C4: the classifier yields `(file_name, album)` for an item exactly when
the whole `payload -> event -> file_parsed -> data -> album` chain of
fields is present; an item lacking any link is rejected
(`is_album_parsed_event` is false) and yields nothing. -/
theorem albumParsedEntry_iff_chain (item : EventStreamItem) (fn : String)
    (alb : ParsedAlbum) :
    (albumParsedEntry item = some (fn, alb) ↔
      ∃ p e fp d, item.payload = some p ∧ p.event = some e ∧
        e.file_parsed = some fp ∧ fp.data = some d ∧ d.album = some alb ∧
        fn = fp.file_name) ∧
    (albumParsedEntry item = none ↔ is_album_parsed_event item = false) := by
  constructor
  · obtain ⟨payload⟩ := item
    cases payload with
    | none => simp [albumParsedEntry, is_album_parsed_event]
    | some pay =>
      obtain ⟨ev⟩ := pay
      cases ev with
      | none => simp [albumParsedEntry, is_album_parsed_event]
      | some e =>
        obtain ⟨fp⟩ := e
        cases fp with
        | none => simp [albumParsedEntry, is_album_parsed_event]
        | some f =>
          obtain ⟨fn2, dat⟩ := f
          cases dat with
          | none => simp [albumParsedEntry, is_album_parsed_event]
          | some d =>
            obtain ⟨alb2⟩ := d
            cases alb2 with
            | none => simp [albumParsedEntry, is_album_parsed_event]
            | some a =>
              simp only [albumParsedEntry, is_album_parsed_event,
                Option.getD_some, Option.isSome_some, Bool.and_self,
                if_true, Option.some.injEq, Prod.mk.injEq]
              constructor
              · rintro ⟨h1, h2⟩
                exact ⟨_, _, _, _, rfl, rfl, rfl, rfl, by rw [h2], h1.symm⟩
              · rintro ⟨p, e', fp', d', hp, he, hfp, hd, ha, hfn⟩
                cases hp; cases he; cases hfp; cases hd; cases ha
                exact ⟨hfn.symm, rfl⟩
  · cases h : is_album_parsed_event item <;>
      simp [albumParsedEntry, h]

/-- C6: every relationship type in the embedding projection is UNDIRECTED;
the GENRE entry reads the stored `weight` property, and the DESCRIPTOR,
LANGUAGE, ALBUM_ARTIST and CREDITED entries default the weight to the
corresponding caller-supplied field. -/
theorem relationship_projection_weights (w : AlbumRelationWeights) :
    (∀ e ∈ relationship_projection w,
        e.2.orientation = "UNDIRECTED" ∧
        (e.1 = "GENRE" → e.2.props = .stored "weight") ∧
        (e.1 = "DESCRIPTOR" → e.2.props = .withDefault "weight" w.descriptor) ∧
        (e.1 = "LANGUAGE" → e.2.props = .withDefault "weight" w.language) ∧
        (e.1 = "ALBUM_ARTIST" → e.2.props = .withDefault "weight" w.album_artist) ∧
        (e.1 = "CREDITED" → e.2.props = .withDefault "weight" w.credited)) ∧
      ("GENRE", ⟨"UNDIRECTED", .stored "weight"⟩) ∈ relationship_projection w ∧
      ("DESCRIPTOR", ⟨"UNDIRECTED", .withDefault "weight" w.descriptor⟩) ∈
        relationship_projection w ∧
      ("LANGUAGE", ⟨"UNDIRECTED", .withDefault "weight" w.language⟩) ∈
        relationship_projection w ∧
      ("ALBUM_ARTIST", ⟨"UNDIRECTED", .withDefault "weight" w.album_artist⟩) ∈
        relationship_projection w ∧
      ("CREDITED", ⟨"UNDIRECTED", .withDefault "weight" w.credited⟩) ∈
        relationship_projection w := by
  refine ⟨?_, ?_, ?_, ?_, ?_, ?_⟩
  · intro e he
    fin_cases he <;> exact ⟨rfl, by simp, by simp, by simp, by simp, by simp⟩
  all_goals simp [relationship_projection]

theorem findCursor_none_iff (subs : List Subscriber) (wid : String) :
    findCursor subs wid = none ↔ ∀ s ∈ subs, s.id ≠ wid := by
  induction subs with
  | nil => simp [findCursor]
  | cons s rest ih =>
    by_cases h : s.id = wid <;> simp [findCursor, h, ih]

theorem findCursor_some (subs : List Subscriber) (wid c : String)
    (h : findCursor subs wid = some c) :
    ∃ s ∈ subs, s.id = wid ∧ s.cursor = c := by
  induction subs with
  | nil => simp [findCursor] at h
  | cons s rest ih =>
    by_cases hs : s.id = wid
    · simp only [findCursor, if_pos hs, Option.some.injEq] at h
      exact ⟨s, List.mem_cons_self .., hs, h⟩
    · simp only [findCursor, if_neg hs] at h
      obtain ⟨t, ht, h1, h2⟩ := ih h
      exact ⟨t, List.mem_cons_of_mem _ ht, h1, h2⟩

/-- C9: on an initialized client, `get_subscriber_cursor` succeeds with the
cursor of a monitor entry whose id is the prefix joined to the subscriber
id by a colon, and with `none` exactly when no entry carries that wire id.
-/
theorem get_subscriber_cursor_spec (c : LuteClient) (pfx sid : String)
    (m : EventsMonitor) (h : c.event_service = some ()) :
    ∃ r, (get_subscriber_cursor c pfx m sid).1 = .ok r ∧
      (r = none ↔ ∀ s ∈ m.subscribers, s.id ≠ pfx ++ ":" ++ sid) ∧
      (∀ cur, r = some cur →
        ∃ s ∈ m.subscribers, s.id = pfx ++ ":" ++ sid ∧ s.cursor = cur) := by
  obtain ⟨ch, al, ev⟩ := c
  simp only at h
  subst h
  refine ⟨findCursor m.subscribers (wireSubscriberId pfx sid), rfl, ?_, ?_⟩
  · exact findCursor_none_iff m.subscribers _
  · intro cur hcur
    exact findCursor_some m.subscribers _ cur hcur

/-- C9 witness: concrete monitor with the wire id `"graph-connector:build"`.
-/
theorem get_subscriber_cursor_spec_witness :
    ∃ r, (get_subscriber_cursor ⟨some (), some (), some ()⟩ "graph-connector"
        ⟨[⟨"graph-connector:build", "c42"⟩]⟩ "build").1 = .ok r ∧
      (r = none ↔ ∀ s ∈ [Subscriber.mk "graph-connector:build" "c42"],
        s.id ≠ "graph-connector" ++ ":" ++ "build") ∧
      (∀ cur, r = some cur →
        ∃ s ∈ [Subscriber.mk "graph-connector:build" "c42"],
          s.id = "graph-connector" ++ ":" ++ "build" ∧ s.cursor = cur) :=
  get_subscriber_cursor_spec ⟨some (), some (), some ()⟩ "graph-connector"
    "build" ⟨[⟨"graph-connector:build", "c42"⟩]⟩ rfl

/-- C8: on a client whose channel and stubs are unset (the state
`__init__` leaves before `__aenter__` runs), each of the four public
methods fails with the not-initialized error and performs no RPC. -/
theorem lute_client_not_initialized (c : LuteClient)
    (hch : c.channel = none) (hal : c.album_service = none)
    (hev : c.event_service = none) :
    (∀ m, get_event_monitor c m = (.error "Client not initialized", [])) ∧
      (∀ pfx m sid,
        get_subscriber_cursor c pfx m sid = (.error "Client not initialized", [])) ∧
      (∀ pfx stream sid mbs rc,
        stream_events c pfx stream sid mbs rc = (.error "Client not initialized", [])) ∧
      (∀ batches srv,
        bulk_upload_embeddings c batches srv = (.error "Client not initialized", [])) := by
  obtain ⟨ch, al, ev⟩ := c
  simp only at hal hev
  subst hal; subst hev
  exact ⟨fun _ => rfl, fun _ _ _ => rfl, fun _ _ _ _ _ => rfl, fun _ _ => rfl⟩

/-- C8 witness: the freshly constructed client. -/
theorem lute_client_not_initialized_witness :
    (∀ m, get_event_monitor LuteClient.fresh m = (.error "Client not initialized", [])) ∧
      (∀ pfx m sid, get_subscriber_cursor LuteClient.fresh pfx m sid =
        (.error "Client not initialized", [])) ∧
      (∀ pfx stream sid mbs rc, stream_events LuteClient.fresh pfx stream sid mbs rc =
        (.error "Client not initialized", [])) ∧
      (∀ batches srv, bulk_upload_embeddings LuteClient.fresh batches srv =
        (.error "Client not initialized", [])) :=
  lute_client_not_initialized LuteClient.fresh rfl rfl rfl

/-- C2 counterexample: when the embedding query fails, the projection
created at entry is never dropped — the drop count on the error path is 0,
not 1, so the one-drop-on-every-path claim is false. -/
theorem generate_album_embeddings_error_no_drop :
    (generate_album_embeddings "lute_graph" AlbumRelationWeights.defaults
        (.error "query failed")).2.projections_created = 1 ∧
      (generate_album_embeddings "lute_graph" AlbumRelationWeights.defaults
        (.error "query failed")).2.projections_dropped = 0 :=
  ⟨rfl, rfl⟩

/-- C2 amended: `generate_album_embeddings` creates exactly one projection
per call and drops it exactly once on the normal-return path, but drops
nothing when the embedding query (or result conversion) raises — the
exception propagates with the projection still alive, since the source has
no `try`/`finally` around the drop. -/
theorem generate_album_embeddings_drop (k : String) (w : AlbumRelationWeights)
    (q : Except String (List EmbeddingRow)) :
    (generate_album_embeddings k w q).2.projections_created = 1 ∧
      (generate_album_embeddings k w q).2.projections_dropped =
        (match q with | .ok _ => 1 | .error _ => 0) ∧
      (∀ rows, q = .ok rows → (generate_album_embeddings k w q).1 =
        .ok (rows.map fun r => ⟨r.fileName, r.embedding, k⟩)) ∧
      (∀ e, q = .error e → (generate_album_embeddings k w q).1 = .error e) := by
  cases q <;> simp [generate_album_embeddings]

theorem mem_dbGenreEdges (albums : List (String × ParsedAlbum))
    (e : GenreEdge) :
    e ∈ dbGenreEdges albums ↔
      (∃ p ∈ albums, ∃ g ∈ p.2.primary_genres, e = ⟨p.1, g, 3⟩) ∨
      (∃ p ∈ albums, ∃ g ∈ p.2.secondary_genres, e = ⟨p.1, g, 1⟩) := by
  simp [dbGenreEdges, dbGenreRows, List.mem_flatMap, eq_comm]

theorem mem_mainGenreEdges (albums : List (String × ParsedAlbum))
    (e : GenreEdge) :
    e ∈ mainGenreEdges albums ↔
      (∃ p ∈ albums, ∃ g ∈ p.2.primary_genres, e = ⟨p.1, g, 2⟩) ∨
      (∃ p ∈ albums, ∃ g ∈ p.2.secondary_genres, e = ⟨p.1, g, 1⟩) := by
  simp [mainGenreEdges, mainGenreRows, List.mem_flatMap, eq_comm]

/-- C1 counterexample: on a one-album batch whose only genre is the
primary genre "rock", `main.update_graph` merges the GENRE edge with
weight 2 and no weight-3 edge exists, so "every primary genre yields a
GENRE relationship merged with weight 3" is false for `update_graph` as
defined in main.py. -/
theorem main_primary_genre_weight_two :
    (⟨"al", "rock", 2⟩ : GenreEdge) ∈
        mainGenreEdges [("al", primaryOnlyAlbum)] ∧
      (⟨"al", "rock", 3⟩ : GenreEdge) ∉
        mainGenreEdges [("al", primaryOnlyAlbum)] := by
  constructor <;> decide

/-- C1 amended: in `db.update_graph` every primary genre yields a GENRE
edge merged with weight 3 and every secondary genre one with weight 1
(and these are exactly the GENRE edges); `main.update_graph` behaves the
same except that its primary-genre weight is 2; in both, an album listing
one genre as primary and secondary gets two distinct GENRE edges, since
the differing weight keeps the MERGE keys apart. -/
theorem genre_edges_weights (albums : List (String × ParsedAlbum))
    (fn : String) (a : ParsedAlbum) (hmem : (fn, a) ∈ albums) :
    (∀ g ∈ a.primary_genres,
        (⟨fn, g, 3⟩ : GenreEdge) ∈ dbGenreEdges albums ∧
        (⟨fn, g, 2⟩ : GenreEdge) ∈ mainGenreEdges albums) ∧
      (∀ g ∈ a.secondary_genres,
        (⟨fn, g, 1⟩ : GenreEdge) ∈ dbGenreEdges albums ∧
        (⟨fn, g, 1⟩ : GenreEdge) ∈ mainGenreEdges albums) ∧
      (∀ g ∈ a.primary_genres, g ∈ a.secondary_genres →
        (⟨fn, g, 3⟩ : GenreEdge) ∈ dbGenreEdges albums ∧
        (⟨fn, g, 1⟩ : GenreEdge) ∈ dbGenreEdges albums ∧
        (⟨fn, g, 3⟩ : GenreEdge) ≠ ⟨fn, g, 1⟩) ∧
      (∀ e, e ∈ dbGenreEdges albums ↔
        (∃ p ∈ albums, ∃ g ∈ p.2.primary_genres, e = ⟨p.1, g, 3⟩) ∨
        (∃ p ∈ albums, ∃ g ∈ p.2.secondary_genres, e = ⟨p.1, g, 1⟩)) ∧
      (∀ e, e ∈ mainGenreEdges albums ↔
        (∃ p ∈ albums, ∃ g ∈ p.2.primary_genres, e = ⟨p.1, g, 2⟩) ∨
        (∃ p ∈ albums, ∃ g ∈ p.2.secondary_genres, e = ⟨p.1, g, 1⟩)) := by
  refine ⟨?_, ?_, ?_, mem_dbGenreEdges albums, mem_mainGenreEdges albums⟩
  · intro g hg
    exact ⟨(mem_dbGenreEdges albums _).mpr (Or.inl ⟨(fn, a), hmem, g, hg, rfl⟩),
      (mem_mainGenreEdges albums _).mpr (Or.inl ⟨(fn, a), hmem, g, hg, rfl⟩)⟩
  · intro g hg
    exact ⟨(mem_dbGenreEdges albums _).mpr (Or.inr ⟨(fn, a), hmem, g, hg, rfl⟩),
      (mem_mainGenreEdges albums _).mpr (Or.inr ⟨(fn, a), hmem, g, hg, rfl⟩)⟩
  · intro g hgp hgs
    refine ⟨(mem_dbGenreEdges albums _).mpr (Or.inl ⟨(fn, a), hmem, g, hgp, rfl⟩),
      (mem_dbGenreEdges albums _).mpr (Or.inr ⟨(fn, a), hmem, g, hgs, rfl⟩), ?_⟩
    intro h
    have h3 : (3 : Nat) = 1 := congrArg GenreEdge.weight h
    exact absurd h3 (by decide)

/-- C1 witness: the one-album batch whose genre "a" is both primary and
secondary. -/
theorem genre_edges_weights_witness :
    (∀ g ∈ dualGenreAlbum.primary_genres,
        (⟨"al", g, 3⟩ : GenreEdge) ∈ dbGenreEdges [("al", dualGenreAlbum)] ∧
        (⟨"al", g, 2⟩ : GenreEdge) ∈ mainGenreEdges [("al", dualGenreAlbum)]) ∧
      (∀ g ∈ dualGenreAlbum.secondary_genres,
        (⟨"al", g, 1⟩ : GenreEdge) ∈ dbGenreEdges [("al", dualGenreAlbum)] ∧
        (⟨"al", g, 1⟩ : GenreEdge) ∈ mainGenreEdges [("al", dualGenreAlbum)]) ∧
      (∀ g ∈ dualGenreAlbum.primary_genres,
        g ∈ dualGenreAlbum.secondary_genres →
        (⟨"al", g, 3⟩ : GenreEdge) ∈ dbGenreEdges [("al", dualGenreAlbum)] ∧
        (⟨"al", g, 1⟩ : GenreEdge) ∈ dbGenreEdges [("al", dualGenreAlbum)] ∧
        (⟨"al", g, 3⟩ : GenreEdge) ≠ ⟨"al", g, 1⟩) ∧
      (∀ e, e ∈ dbGenreEdges [("al", dualGenreAlbum)] ↔
        (∃ p ∈ [("al", dualGenreAlbum)], ∃ g ∈ p.2.primary_genres,
          e = ⟨p.1, g, 3⟩) ∨
        (∃ p ∈ [("al", dualGenreAlbum)], ∃ g ∈ p.2.secondary_genres,
          e = ⟨p.1, g, 1⟩)) ∧
      (∀ e, e ∈ mainGenreEdges [("al", dualGenreAlbum)] ↔
        (∃ p ∈ [("al", dualGenreAlbum)], ∃ g ∈ p.2.primary_genres,
          e = ⟨p.1, g, 2⟩) ∨
        (∃ p ∈ [("al", dualGenreAlbum)], ∃ g ∈ p.2.secondary_genres,
          e = ⟨p.1, g, 1⟩)) :=
  genre_edges_weights [("al", dualGenreAlbum)] "al" dualGenreAlbum
    (List.mem_cons_self ..)

theorem optOr_some (x : α) (b : Option α) : optOr (some x) b = some x := rfl

theorem optOr_none_left (b : Option α) : optOr none b = b := rfl

theorem optOr_none_right (a : Option α) : optOr a none = a := by
  cases a <;> rfl

theorem optOr_assoc (a b c : Option α) :
    optOr (optOr a b) c = optOr a (optOr b c) := by
  cases a <;> rfl

theorem head?_append' (l l' : List α) :
    (l ++ l').head? = optOr l.head? l'.head? := by
  cases l <;> rfl

theorem getLast?_append' (l l' : List α) :
    (l ++ l').getLast? = optOr l'.getLast? l.getLast? := by
  rw [← List.head?_reverse, ← List.head?_reverse, ← List.head?_reverse,
    List.reverse_append, head?_append']

theorem getLast?_cons' (a : α) (t : List α) :
    (a :: t).getLast? = optOr t.getLast? (some a) := by
  rw [← List.head?_reverse, List.reverse_cons, head?_append',
    ← List.head?_reverse]
  rfl

theorem dictGet_nil (k : String) : dictGet [] k = none := rfl

theorem dictGet_cons (x : String × String) (l : List (String × String))
    (k : String) :
    dictGet (x :: l) k = if x.1 = k then some x.2 else dictGet l k := by
  by_cases h : x.1 = k
  · simp [dictGet, List.find?_cons_of_pos, h]
  · rw [if_neg h]
    unfold dictGet
    rw [List.find?_cons_of_neg]
    simp [h]

theorem dictGet_update_same (d : List (String × String)) (k v : String) :
    dictGet (d.map fun p => if p.1 = k then (k, v) else p) k =
      if d.any fun p => p.1 = k then some v else none := by
  induction d with
  | nil => rfl
  | cons p rest ih =>
    by_cases h : p.1 = k
    · simp only [List.map_cons, if_pos h, dictGet_cons, List.any_cons]
      simp [h]
    · simp only [List.map_cons, if_neg h, dictGet_cons, List.any_cons]
      rw [ih]
      have hd : decide (p.1 = k) = false := by simp [h]
      simp only [hd, Bool.false_or]

theorem dictGet_update_ne (d : List (String × String)) (k v fn : String)
    (hk : k ≠ fn) :
    dictGet (d.map fun p => if p.1 = k then (k, v) else p) fn =
      dictGet d fn := by
  induction d with
  | nil => rfl
  | cons p rest ih =>
    by_cases h : p.1 = k
    · simp only [List.map_cons, if_pos h, dictGet_cons]
      rw [if_neg hk, ih, if_neg]
      rw [h]; exact hk
    · simp only [List.map_cons, if_neg h, dictGet_cons, ih]

theorem dictGet_append_single (d : List (String × String)) (k v fn : String) :
    dictGet (d ++ [(k, v)]) fn =
      optOr (dictGet d fn) (if k = fn then some v else none) := by
  induction d with
  | nil => simp [dictGet_cons, dictGet_nil, optOr_none_left]
  | cons p rest ih =>
    simp only [List.cons_append, dictGet_cons, ih]
    by_cases h : p.1 = fn
    · simp [h, optOr_some]
    · simp [h]

theorem dictGet_of_not_contains (d : List (String × String)) (k : String)
    (h : (d.any fun p => p.1 = k) = false) : dictGet d k = none := by
  induction d with
  | nil => rfl
  | cons p rest ih =>
    simp only [List.any_cons, Bool.or_eq_false_iff, decide_eq_false_iff_not] at h
    rw [dictGet_cons, if_neg h.1, ih h.2]

theorem dictGet_dictSet_same (d : List (String × String)) (k v : String) :
    dictGet (dictSet d k v) k = some v := by
  unfold dictSet
  by_cases h : (d.any fun p => p.1 = k) = true
  · rw [if_pos h, dictGet_update_same, if_pos h]
  · rw [if_neg h, dictGet_append_single,
      dictGet_of_not_contains d k (Bool.not_eq_true _ ▸ h), if_pos rfl]
    rfl

theorem dictGet_dictSet_ne (d : List (String × String)) (k v fn : String)
    (hk : k ≠ fn) : dictGet (dictSet d k v) fn = dictGet d fn := by
  unfold dictSet
  by_cases h : (d.any fun p => p.1 = k) = true
  · rw [if_pos h, dictGet_update_ne d k v fn hk]
  · rw [if_neg h, dictGet_append_single, if_neg hk, optOr_none_right]

theorem dictContains_true_get (d : List (String × String)) (k : String)
    (h : dictContains d k = true) : ∃ y, dictGet d k = some y := by
  induction d with
  | nil => simp [dictContains] at h
  | cons p rest ih =>
    by_cases hp : p.1 = k
    · exact ⟨p.2, by rw [dictGet_cons, if_pos hp]⟩
    · simp only [dictContains, List.any_cons, Bool.or_eq_true,
        decide_eq_true_eq] at h
      rcases h with h | h
      · exact absurd h hp
      · obtain ⟨y, hy⟩ := ih h
        exact ⟨y, by rw [dictGet_cons, if_neg hp, hy]⟩

theorem artists_fold_get (l : List Artist) (d : List (String × String))
    (fn : String) :
    dictGet (l.foldl (fun d ar => dictSet d ar.file_name ar.name) d) fn =
      optOr ((l.filter fun ar => ar.file_name == fn).map Artist.name).getLast?
        (dictGet d fn) := by
  induction l generalizing d with
  | nil => rfl
  | cons ar rest ih =>
    simp only [List.foldl_cons]
    rw [ih]
    by_cases h : ar.file_name = fn
    · have hb : (ar.file_name == fn) = true := by simp [h]
      simp only [List.filter_cons, hb, if_pos, List.map_cons]
      rw [getLast?_cons', optOr_assoc, h, dictGet_dictSet_same, optOr_some]
    · have hb : (ar.file_name == fn) = false := by simp [h]
      simp only [List.filter_cons, hb, Bool.false_eq_true, if_false]
      rw [dictGet_dictSet_ne _ _ _ _ h]

theorem credits_fold_get (l : List Credit) (d : List (String × String))
    (fn : String) :
    dictGet (l.foldl
        (fun d cr =>
          if dictContains d cr.artist.file_name then d
          else dictSet d cr.artist.file_name cr.artist.name) d) fn =
      optOr (dictGet d fn)
        (((l.filter fun cr => cr.artist.file_name == fn).map
          fun cr => cr.artist.name).head?) := by
  induction l generalizing d with
  | nil => rw [List.foldl_nil, List.filter_nil, List.map_nil]; exact (optOr_none_right _).symm
  | cons cr rest ih =>
    simp only [List.foldl_cons]
    by_cases h : cr.artist.file_name = fn
    · have hb : (cr.artist.file_name == fn) = true := by simp [h]
      simp only [List.filter_cons, hb, if_pos, List.map_cons, List.head?_cons]
      by_cases hc : dictContains d cr.artist.file_name = true
      · rw [if_pos hc, ih]
        obtain ⟨y, hy⟩ := dictContains_true_get d fn (h ▸ hc)
        rw [hy, optOr_some, optOr_some]
      · have hn : dictGet d fn = none := by
          have hfalse : dictContains d fn = false := by
            have := Bool.not_eq_true (dictContains d cr.artist.file_name) ▸ hc
            rwa [h] at this
          exact dictGet_of_not_contains d fn hfalse
        rw [if_neg hc, ih, h, dictGet_dictSet_same, hn, optOr_some,
          optOr_none_left]
    · have hb : (cr.artist.file_name == fn) = false := by simp [h]
      simp only [List.filter_cons, hb, Bool.false_eq_true, if_false]
      by_cases hc : dictContains d cr.artist.file_name = true
      · rw [if_pos hc, ih]
      · rw [if_neg hc, ih, dictGet_dictSet_ne _ _ _ _ h]

theorem processAlbum_artists_get (acc : UpdateAcc) (album : ParsedAlbum)
    (fn : String) :
    dictGet (processAlbum acc album).artists fn =
      optOr ((album.artists.filter fun ar => ar.file_name == fn).map
          Artist.name).getLast?
        (optOr (dictGet acc.artists fn)
          (((album.credits.filter fun cr => cr.artist.file_name == fn).map
            fun cr => cr.artist.name).head?)) := by
  show dictGet (album.credits.foldl _
      (album.artists.foldl _ acc.artists)) fn = _
  rw [credits_fold_get, artists_fold_get, optOr_assoc]

theorem batch_fold_artists_get (albums : List (String × ParsedAlbum))
    (acc : UpdateAcc) (fn : String) :
    dictGet ((albums.foldl (fun acc p => processAlbum acc p.2) acc).artists) fn =
      optOr (artistListNames albums fn).getLast?
        (optOr (dictGet acc.artists fn) ((creditNames albums fn).head?)) := by
  induction albums generalizing acc with
  | nil =>
    rw [List.foldl_nil]
    show dictGet acc.artists fn =
      optOr (List.getLast? []) (optOr (dictGet acc.artists fn) (List.head? []))
    rw [List.getLast?_nil, List.head?_nil, optOr_none_left, optOr_none_right]
  | cons p rest ih =>
    rw [List.foldl_cons, ih, processAlbum_artists_get]
    simp only [artistListNames, creditNames, List.flatMap_cons]
    rw [getLast?_append', head?_append']
    simp only [optOr_assoc]

/-- C5 counterexample: a batch with one album whose artists list holds the
file_name "fn" twice, first named "A" then named "B"; the collected dict —
and hence the `$artists` MERGE rows — record "B", the name of the last
occurrence, not "A", the name of the first occurrence. -/
theorem artist_first_occurrence_cex :
    artistMergeRows [("al", dupArtistAlbum)] = [("fn", "B")] ∧
      (artistListNames [("al", dupArtistAlbum)] "fn").head? = some "A" ∧
      dictGet (artistMergeRows [("al", dupArtistAlbum)]) "fn" = some "B" ∧
      "B" ≠ "A" := by
  refine ⟨by decide, by decide, by decide, by decide⟩

/-- C5 amended: the display name the collection records for an artist
file_name — and thus passes to the ON CREATE merge — is the name of its
last occurrence inside the albums' `artists` lists (in batch order), since
those assignments overwrite unconditionally; only when the file_name never
occurs in an artists list is it the name of its first `credits` occurrence,
credits being inserted only when the key is absent. -/
theorem artist_display_name_resolution (albums : List (String × ParsedAlbum))
    (fn : String) :
    dictGet (artistMergeRows albums) fn =
      optOr (artistListNames albums fn).getLast?
        ((creditNames albums fn).head?) := by
  show dictGet ((albums.foldl (fun acc p => processAlbum acc p.2)
    ⟨[], [], [], [], 0⟩).artists) fn = _
  rw [batch_fold_artists_get, dictGet_nil, optOr_none_left]

theorem processAlbum_genres (acc : UpdateAcc) (a : ParsedAlbum) :
    (processAlbum acc a).genres =
      a.secondary_genres.foldl setAdd (a.primary_genres.foldl setAdd acc.genres) :=
  rfl

theorem processAlbum_descriptors (acc : UpdateAcc) (a : ParsedAlbum) :
    (processAlbum acc a).descriptors = a.descriptors.foldl setAdd acc.descriptors :=
  rfl

theorem processAlbum_languages (acc : UpdateAcc) (a : ParsedAlbum) :
    (processAlbum acc a).languages = a.languages.foldl setAdd acc.languages :=
  rfl

theorem processAlbum_relcount (acc : UpdateAcc) (a : ParsedAlbum) :
    (processAlbum acc a).relationship_count =
      acc.relationship_count + albumRelContribution a := by
  show acc.relationship_count + a.artists.length + a.credits.length
      + a.primary_genres.length + a.secondary_genres.length
      + a.descriptors.length + a.languages.length = _
  unfold albumRelContribution
  omega

theorem processAlbum_artists (acc : UpdateAcc) (a : ParsedAlbum) :
    (processAlbum acc a).artists =
      a.credits.foldl
        (fun d cr =>
          if dictContains d cr.artist.file_name then d
          else dictSet d cr.artist.file_name cr.artist.name)
        (a.artists.foldl (fun d ar => dictSet d ar.file_name ar.name)
          acc.artists) :=
  rfl

theorem toFinset_setAdd (s : List String) (x : String) :
    (setAdd s x).toFinset = insert x s.toFinset := by
  unfold setAdd
  by_cases h : x ∈ s
  · rw [if_pos h]
    exact (Finset.insert_eq_self.mpr (List.mem_toFinset.mpr h)).symm
  · rw [if_neg h]
    simp only [List.toFinset_append, List.toFinset_cons, List.toFinset_nil]
    rw [Finset.union_comm]
    simp [Finset.insert_eq]

theorem nodup_setAdd (s : List String) (x : String) (h : s.Nodup) :
    (setAdd s x).Nodup := by
  unfold setAdd
  by_cases hx : x ∈ s
  · rwa [if_pos hx]
  · rw [if_neg hx]
    simp [List.nodup_append, h, hx]

theorem toFinset_foldl_setAdd (l s : List String) :
    (l.foldl setAdd s).toFinset = s.toFinset ∪ l.toFinset := by
  induction l generalizing s with
  | nil => simp
  | cons x rest ih =>
    rw [List.foldl_cons, ih, toFinset_setAdd, List.toFinset_cons]
    simp [Finset.insert_union, Finset.union_insert]

theorem nodup_foldl_setAdd (l s : List String) (h : s.Nodup) :
    (l.foldl setAdd s).Nodup := by
  induction l generalizing s with
  | nil => exact h
  | cons x rest ih => exact ih _ (nodup_setAdd _ _ h)

theorem genres_toFinset_fold (albums : List (String × ParsedAlbum))
    (acc : UpdateAcc) :
    ((albums.foldl (fun acc p => processAlbum acc p.2) acc).genres).toFinset =
      acc.genres.toFinset ∪ (genreOccs albums).toFinset := by
  induction albums generalizing acc with
  | nil => simp [genreOccs]
  | cons p rest ih =>
    rw [List.foldl_cons, ih, processAlbum_genres, toFinset_foldl_setAdd,
      toFinset_foldl_setAdd]
    simp only [genreOccs, List.flatMap_cons, List.toFinset_append]
    simp [Finset.union_assoc]

theorem genres_nodup_fold (albums : List (String × ParsedAlbum))
    (acc : UpdateAcc) (h : acc.genres.Nodup) :
    ((albums.foldl (fun acc p => processAlbum acc p.2) acc).genres).Nodup := by
  induction albums generalizing acc with
  | nil => exact h
  | cons p rest ih =>
    rw [List.foldl_cons]
    exact ih _ (by rw [processAlbum_genres]; exact nodup_foldl_setAdd _ _ (nodup_foldl_setAdd _ _ h))

theorem descriptors_toFinset_fold (albums : List (String × ParsedAlbum))
    (acc : UpdateAcc) :
    ((albums.foldl (fun acc p => processAlbum acc p.2) acc).descriptors).toFinset =
      acc.descriptors.toFinset ∪ (descriptorOccs albums).toFinset := by
  induction albums generalizing acc with
  | nil => simp [descriptorOccs]
  | cons p rest ih =>
    rw [List.foldl_cons, ih, processAlbum_descriptors, toFinset_foldl_setAdd]
    simp only [descriptorOccs, List.flatMap_cons, List.toFinset_append]
    rw [Finset.union_assoc]

theorem descriptors_nodup_fold (albums : List (String × ParsedAlbum))
    (acc : UpdateAcc) (h : acc.descriptors.Nodup) :
    ((albums.foldl (fun acc p => processAlbum acc p.2) acc).descriptors).Nodup := by
  induction albums generalizing acc with
  | nil => exact h
  | cons p rest ih =>
    rw [List.foldl_cons]
    exact ih _ (by rw [processAlbum_descriptors]; exact nodup_foldl_setAdd _ _ h)

theorem languages_toFinset_fold (albums : List (String × ParsedAlbum))
    (acc : UpdateAcc) :
    ((albums.foldl (fun acc p => processAlbum acc p.2) acc).languages).toFinset =
      acc.languages.toFinset ∪ (languageOccs albums).toFinset := by
  induction albums generalizing acc with
  | nil => simp [languageOccs]
  | cons p rest ih =>
    rw [List.foldl_cons, ih, processAlbum_languages, toFinset_foldl_setAdd]
    simp only [languageOccs, List.flatMap_cons, List.toFinset_append]
    rw [Finset.union_assoc]

theorem languages_nodup_fold (albums : List (String × ParsedAlbum))
    (acc : UpdateAcc) (h : acc.languages.Nodup) :
    ((albums.foldl (fun acc p => processAlbum acc p.2) acc).languages).Nodup := by
  induction albums generalizing acc with
  | nil => exact h
  | cons p rest ih =>
    rw [List.foldl_cons]
    exact ih _ (by rw [processAlbum_languages]; exact nodup_foldl_setAdd _ _ h)

theorem relcount_fold (albums : List (String × ParsedAlbum)) (acc : UpdateAcc) :
    (albums.foldl (fun acc p => processAlbum acc p.2) acc).relationship_count =
      acc.relationship_count +
        (albums.map fun p => albumRelContribution p.2).sum := by
  induction albums generalizing acc with
  | nil => simp
  | cons p rest ih =>
    rw [List.foldl_cons, ih, processAlbum_relcount, List.map_cons,
      List.sum_cons]
    omega

theorem keys_dictSet (d : List (String × String)) (k v : String) :
    (dictSet d k v).map Prod.fst =
      if dictContains d k then d.map Prod.fst else d.map Prod.fst ++ [k] := by
  unfold dictSet dictContains
  by_cases h : (d.any fun p => p.1 = k) = true
  · rw [if_pos h, if_pos h, List.map_map]
    apply List.map_congr_left
    intro p _
    by_cases hp : p.1 = k
    · simp [hp]
    · simp [hp]
  · rw [if_neg h, if_neg h, List.map_append]
    rfl

theorem mem_keys_of_dictContains (d : List (String × String)) (k : String)
    (h : dictContains d k = true) : k ∈ d.map Prod.fst := by
  unfold dictContains at h
  simp only [List.any_eq_true, decide_eq_true_eq] at h
  obtain ⟨p, hp, hk⟩ := h
  exact hk ▸ List.mem_map_of_mem Prod.fst hp

theorem not_mem_keys_of_not_dictContains (d : List (String × String))
    (k : String) (h : dictContains d k = false) : k ∉ d.map Prod.fst := by
  intro hk
  obtain ⟨p, hp, hk2⟩ := List.mem_map.mp hk
  have ht : dictContains d k = true := by
    unfold dictContains
    simp only [List.any_eq_true, decide_eq_true_eq]
    exact ⟨p, hp, hk2⟩
  rw [h] at ht
  exact Bool.false_ne_true ht

theorem keys_toFinset_dictSet (d : List (String × String)) (k v : String) :
    ((dictSet d k v).map Prod.fst).toFinset =
      insert k (d.map Prod.fst).toFinset := by
  rw [keys_dictSet]
  by_cases h : dictContains d k = true
  · rw [if_pos h]
    exact (Finset.insert_eq_self.mpr
      (List.mem_toFinset.mpr (mem_keys_of_dictContains d k h))).symm
  · rw [if_neg h]
    simp only [List.toFinset_append, List.toFinset_cons, List.toFinset_nil]
    rw [Finset.union_comm]
    simp [Finset.insert_eq]

theorem keys_nodup_dictSet (d : List (String × String)) (k v : String)
    (h : (d.map Prod.fst).Nodup) : ((dictSet d k v).map Prod.fst).Nodup := by
  rw [keys_dictSet]
  by_cases hc : dictContains d k = true
  · rwa [if_pos hc]
  · rw [if_neg hc]
    simp [List.nodup_append, h,
      not_mem_keys_of_not_dictContains d k (Bool.not_eq_true _ ▸ hc)]

theorem keys_artists_fold (l : List Artist) (d : List (String × String)) :
    ((l.foldl (fun d ar => dictSet d ar.file_name ar.name) d).map
        Prod.fst).toFinset =
      (d.map Prod.fst).toFinset ∪ (l.map Artist.file_name).toFinset := by
  induction l generalizing d with
  | nil => simp
  | cons ar rest ih =>
    rw [List.foldl_cons, ih, keys_toFinset_dictSet, List.map_cons,
      List.toFinset_cons]
    simp [Finset.insert_union, Finset.union_insert]

theorem keys_nodup_artists_fold (l : List Artist) (d : List (String × String))
    (h : (d.map Prod.fst).Nodup) :
    ((l.foldl (fun d ar => dictSet d ar.file_name ar.name) d).map
      Prod.fst).Nodup := by
  induction l generalizing d with
  | nil => exact h
  | cons ar rest ih => exact ih _ (keys_nodup_dictSet _ _ _ h)

theorem keys_credits_fold (l : List Credit) (d : List (String × String)) :
    ((l.foldl
        (fun d cr =>
          if dictContains d cr.artist.file_name then d
          else dictSet d cr.artist.file_name cr.artist.name) d).map
        Prod.fst).toFinset =
      (d.map Prod.fst).toFinset ∪
        (l.map fun cr => cr.artist.file_name).toFinset := by
  induction l generalizing d with
  | nil => simp
  | cons cr rest ih =>
    rw [List.foldl_cons, ih, List.map_cons, List.toFinset_cons]
    have hstep : ((if dictContains d cr.artist.file_name then d
        else dictSet d cr.artist.file_name cr.artist.name).map
          Prod.fst).toFinset =
        insert cr.artist.file_name (d.map Prod.fst).toFinset := by
      by_cases hc : dictContains d cr.artist.file_name = true
      · rw [if_pos hc]
        exact (Finset.insert_eq_self.mpr
          (List.mem_toFinset.mpr (mem_keys_of_dictContains _ _ hc))).symm
      · rw [if_neg hc]
        exact keys_toFinset_dictSet d _ _
    rw [hstep]
    simp [Finset.insert_union, Finset.union_insert]

theorem keys_nodup_credits_fold (l : List Credit) (d : List (String × String))
    (h : (d.map Prod.fst).Nodup) :
    ((l.foldl
        (fun d cr =>
          if dictContains d cr.artist.file_name then d
          else dictSet d cr.artist.file_name cr.artist.name) d).map
      Prod.fst).Nodup := by
  induction l generalizing d with
  | nil => exact h
  | cons cr rest ih =>
    rw [List.foldl_cons]
    apply ih
    by_cases hc : dictContains d cr.artist.file_name = true
    · rwa [if_pos hc]
    · rw [if_neg hc]
      exact keys_nodup_dictSet _ _ _ h

theorem artists_keys_fold (albums : List (String × ParsedAlbum))
    (acc : UpdateAcc) :
    (((albums.foldl (fun acc p => processAlbum acc p.2) acc).artists).map
        Prod.fst).toFinset =
      ((acc.artists.map Prod.fst).toFinset) ∪ (artistOccs albums).toFinset := by
  induction albums generalizing acc with
  | nil => simp [artistOccs]
  | cons p rest ih =>
    rw [List.foldl_cons, ih, processAlbum_artists, keys_credits_fold,
      keys_artists_fold]
    simp only [artistOccs, List.flatMap_cons, List.toFinset_append]
    simp [Finset.union_assoc]

theorem artists_keys_nodup_fold (albums : List (String × ParsedAlbum))
    (acc : UpdateAcc) (h : (acc.artists.map Prod.fst).Nodup) :
    (((albums.foldl (fun acc p => processAlbum acc p.2) acc).artists).map
      Prod.fst).Nodup := by
  induction albums generalizing acc with
  | nil => exact h
  | cons p rest ih =>
    rw [List.foldl_cons]
    apply ih
    rw [processAlbum_artists]
    exact keys_nodup_credits_fold _ _ (keys_nodup_artists_fold _ _ h)

/-- C7: per batch, the "Graph updated" record reports `node_count` equal to
the number of distinct artist file_names plus distinct genres plus distinct
descriptors plus distinct languages plus the number of albums in the batch,
and `relationship_count` equal to the sum over albums of
len(artists) + len(credits) + len(primary_genres) + len(secondary_genres) +
len(descriptors) + len(languages), credits counted once per credit entry
(roles are not expanded for this counter). -/
theorem graph_updated_counts (albums : List (String × ParsedAlbum)) :
    node_count albums =
      (artistOccs albums).toFinset.card + (genreOccs albums).toFinset.card +
        (descriptorOccs albums).toFinset.card +
        (languageOccs albums).toFinset.card + albums.length ∧
      relationship_count albums =
        (albums.map fun p => albumRelContribution p.2).sum := by
  constructor
  · have ha : (buildUpdateAcc albums).artists.length =
        (artistOccs albums).toFinset.card := by
      have h1 : ((buildUpdateAcc albums).artists.map Prod.fst).Nodup :=
        artists_keys_nodup_fold albums ⟨[], [], [], [], 0⟩ (by simp)
      have h2 : (((buildUpdateAcc albums).artists.map Prod.fst)).toFinset =
          (artistOccs albums).toFinset := by
        have h3 := artists_keys_fold albums ⟨[], [], [], [], 0⟩
        simpa using h3
      calc (buildUpdateAcc albums).artists.length
          = ((buildUpdateAcc albums).artists.map Prod.fst).length := by simp
        _ = (((buildUpdateAcc albums).artists.map Prod.fst)).toFinset.card :=
            (List.toFinset_card_of_nodup h1).symm
        _ = (artistOccs albums).toFinset.card := by rw [h2]
    have hg : (buildUpdateAcc albums).genres.length =
        (genreOccs albums).toFinset.card := by
      have h1 : ((buildUpdateAcc albums).genres).Nodup :=
        genres_nodup_fold albums ⟨[], [], [], [], 0⟩ List.nodup_nil
      have h2 : ((buildUpdateAcc albums).genres).toFinset =
          (genreOccs albums).toFinset := by
        have h3 := genres_toFinset_fold albums ⟨[], [], [], [], 0⟩
        simpa using h3
      rw [← List.toFinset_card_of_nodup h1, h2]
    have hdm : (buildUpdateAcc albums).descriptors.length =
        (descriptorOccs albums).toFinset.card := by
      have h1 : ((buildUpdateAcc albums).descriptors).Nodup :=
        descriptors_nodup_fold albums ⟨[], [], [], [], 0⟩ List.nodup_nil
      have h2 : ((buildUpdateAcc albums).descriptors).toFinset =
          (descriptorOccs albums).toFinset := by
        have h3 := descriptors_toFinset_fold albums ⟨[], [], [], [], 0⟩
        simpa using h3
      rw [← List.toFinset_card_of_nodup h1, h2]
    have hlm : (buildUpdateAcc albums).languages.length =
        (languageOccs albums).toFinset.card := by
      have h1 : ((buildUpdateAcc albums).languages).Nodup :=
        languages_nodup_fold albums ⟨[], [], [], [], 0⟩ List.nodup_nil
      have h2 : ((buildUpdateAcc albums).languages).toFinset =
          (languageOccs albums).toFinset := by
        have h3 := languages_toFinset_fold albums ⟨[], [], [], [], 0⟩
        simpa using h3
      rw [← List.toFinset_card_of_nodup h1, h2]
    show (buildUpdateAcc albums).artists.length +
        (buildUpdateAcc albums).genres.length +
        (buildUpdateAcc albums).descriptors.length +
        (buildUpdateAcc albums).languages.length + albums.length = _
    rw [ha, hg, hdm, hlm]
  · have h := relcount_fold albums ⟨[], [], [], [], 0⟩
    simpa using h

theorem streamStep_inv (p : StreamParams) (s s' : StreamState)
    (st : StreamStep) (hs : streamStep p s st = some s')
    (h1 : s.ackCount ≤ s.putCount) (h2 : s.putCount ≤ s.consumedCount)
    (h3 : s.started = false → s.consumedCount = 0 ∧ s.sent = [])
    (h4 : s.started = true →
      s.sent = initialRequest p :: (List.range s.ackCount).map (ackRequest p)) :
    s'.ackCount ≤ s'.putCount ∧ s'.putCount ≤ s'.consumedCount ∧
      (s'.started = false → s'.consumedCount = 0 ∧ s'.sent = []) ∧
      (s'.started = true →
        s'.sent = initialRequest p ::
          (List.range s'.ackCount).map (ackRequest p)) := by
  cases st with
  | init =>
    by_cases h : s.started = true
    · simp [streamStep, h] at hs
    · simp only [streamStep, h, if_false, Bool.false_eq_true] at hs
      obtain rfl := Option.some.inj hs
      have hs0 := h3 (Bool.not_eq_true _ ▸ h)
      have hack : s.ackCount = 0 := by omega
      refine ⟨h1, h2, fun hf => absurd hf (by simp), fun _ => ?_⟩
      rw [hs0.2, hack]
      rfl
  | consume =>
    by_cases h : s.started = true ∧ s.consumedCount = s.putCount
    · rw [streamStep, if_pos h] at hs
      obtain rfl := Option.some.inj hs
      refine ⟨h1, by dsimp only; omega, fun hf => ?_, fun _ => h4 h.1⟩
      rw [h.1] at hf
      exact absurd hf (by simp)
    · rw [streamStep, if_neg h] at hs
      exact Option.noConfusion hs
  | put =>
    by_cases h : s.putCount < s.consumedCount
    · rw [streamStep, if_pos h] at hs
      obtain rfl := Option.some.inj hs
      refine ⟨by dsimp only; omega, by dsimp only; omega, fun hf => ?_,
        fun ht => h4 ht⟩
      obtain ⟨hc0, hnil⟩ := h3 hf
      omega
    · rw [streamStep, if_neg h] at hs
      exact Option.noConfusion hs
  | emitAck =>
    by_cases h : s.started = true ∧ s.ackCount < s.putCount
    · rw [streamStep, if_pos h] at hs
      obtain rfl := Option.some.inj hs
      refine ⟨by dsimp only; omega, h2, fun hf => ?_, fun _ => ?_⟩
      · rw [h.1] at hf
        exact absurd hf (by simp)
      · show s.sent ++ [ackRequest p s.ackCount] = _
        rw [h4 h.1, List.range_succ, List.map_append]
        rfl
    · rw [streamStep, if_neg h] at hs
      exact Option.noConfusion hs

theorem streamRun_inv (p : StreamParams) (steps : List StreamStep)
    (s s' : StreamState) (hrun : streamRun p s steps = some s')
    (h1 : s.ackCount ≤ s.putCount) (h2 : s.putCount ≤ s.consumedCount)
    (h3 : s.started = false → s.consumedCount = 0 ∧ s.sent = [])
    (h4 : s.started = true →
      s.sent = initialRequest p :: (List.range s.ackCount).map (ackRequest p)) :
    s'.ackCount ≤ s'.putCount ∧ s'.putCount ≤ s'.consumedCount ∧
      (s'.started = false → s'.consumedCount = 0 ∧ s'.sent = []) ∧
      (s'.started = true →
        s'.sent = initialRequest p ::
          (List.range s'.ackCount).map (ackRequest p)) := by
  induction steps generalizing s with
  | nil =>
    simp only [streamRun] at hrun
    obtain rfl := Option.some.inj hrun
    exact ⟨h1, h2, h3, h4⟩
  | cons st rest ih =>
    simp only [streamRun] at hrun
    cases hstep : streamStep p s st with
    | none => rw [hstep] at hrun; exact Option.noConfusion hrun
    | some s2 =>
      rw [hstep] at hrun
      obtain ⟨g1, g2, g3, g4⟩ := streamStep_inv p s s2 st hstep h1 h2 h3 h4
      exact ih s2 hrun g1 g2 g3 g4

/-- C3 amended: in every interleaving of the `stream_events` coroutines,
the first outgoing request carries no cursor; the (i+1)-th outgoing
request is the acknowledgement carrying the cursor of the i-th batch
(acknowledgements go out in FIFO batch order), and that batch has been
consumed by the caller before the request is sent.  The carried cursor is
the oldest unacknowledged consumed batch's, which need not be the most
recently consumed batch's when the caller has consumed further batches
since the previous acknowledgement. -/
theorem stream_events_cursor_discipline (p : StreamParams) (s : StreamState)
    (h : streamReachable p s) :
    (initialRequest p).cursor = none ∧
      (∀ i, (ackRequest p i).cursor = some (p.replyCursor i)) ∧
      (s.sent = [] ∨ s.sent.head? = some (initialRequest p)) ∧
      (∀ i req, s.sent[i + 1]? = some req →
        req = ackRequest p i ∧ i < s.consumedCount) := by
  obtain ⟨steps, hrun⟩ := h
  obtain ⟨h1, h2, h3, h4⟩ := streamRun_inv p steps StreamState.start s hrun
    (Nat.le_refl 0) (Nat.le_refl 0) (fun _ => ⟨rfl, rfl⟩)
    (fun hf => absurd hf (by simp [StreamState.start]))
  refine ⟨rfl, fun i => rfl, ?_, ?_⟩
  · cases hst : s.started with
    | false => exact Or.inl (h3 hst).2
    | true =>
      right
      rw [h4 hst]
      rfl
  · intro i req hreq
    cases hst : s.started with
    | false =>
      rw [(h3 hst).2] at hreq
      simp at hreq
    | true =>
      rw [h4 hst, List.getElem?_cons_succ, List.getElem?_map] at hreq
      by_cases hi : i < s.ackCount
      · rw [List.getElem?_range hi] at hreq
        obtain rfl := Option.some.inj hreq.symm
        exact ⟨rfl, by omega⟩
      · have hnone : (List.range s.ackCount)[i]? = none :=
          List.getElem?_eq_none (by simpa using Nat.le_of_not_lt hi)
        rw [hnone] at hreq
        exact Option.noConfusion hreq

/-- C3 witness: a run that sends the initial request, consumes one batch,
enqueues its cursor and acknowledges it. -/
theorem stream_events_cursor_discipline_witness :
    (initialRequest cexStreamParams).cursor = none ∧
      (∀ i, (ackRequest cexStreamParams i).cursor =
        some (cexStreamParams.replyCursor i)) ∧
      ((⟨true, 1, 1, 1, [initialRequest cexStreamParams,
          ackRequest cexStreamParams 0]⟩ : StreamState).sent = [] ∨
        (⟨true, 1, 1, 1, [initialRequest cexStreamParams,
          ackRequest cexStreamParams 0]⟩ : StreamState).sent.head? =
          some (initialRequest cexStreamParams)) ∧
      (∀ i req,
        (⟨true, 1, 1, 1, [initialRequest cexStreamParams,
          ackRequest cexStreamParams 0]⟩ : StreamState).sent[i + 1]? =
            some req →
        req = ackRequest cexStreamParams i ∧
          i < (⟨true, 1, 1, 1, [initialRequest cexStreamParams,
            ackRequest cexStreamParams 0]⟩ : StreamState).consumedCount) :=
  stream_events_cursor_discipline cexStreamParams
    ⟨true, 1, 1, 1, [initialRequest cexStreamParams,
      ackRequest cexStreamParams 0]⟩
    ⟨[.init, .consume, .put, .emitAck], rfl⟩

/-- C3 counterexample: a valid schedule of the `stream_events` coroutines
(server pushing ahead, acknowledgement generator lagging, e.g. during its
250 ms sleep) in which the caller consumes batches 0 and 1 before the
first acknowledgement goes out; that acknowledgement carries the cursor
"c0" of batch 0, while the most recently consumed batch is batch 1 with
cursor "c1" — so "every subsequent outgoing request carries the cursor of
the most recently consumed batch" is false. -/
theorem stream_ack_lags_consumption :
    streamRun cexStreamParams StreamState.start
        [.init, .consume, .put, .consume, .put, .emitAck] =
      some ⟨true, 2, 2, 1, [initialRequest cexStreamParams,
        ackRequest cexStreamParams 0]⟩ ∧
      (ackRequest cexStreamParams 0).cursor = some "c0" ∧
      cexStreamParams.replyCursor (2 - 1) = "c1" ∧
      ("c0" : String) ≠ "c1" := by
  refine ⟨rfl, by decide, by decide, by decide⟩
